import Mathlib

/-!
Shallow embedding of the lazy pipeline/transform core of the `intake`
repository (`src/intake/readers/mixins.py`) and of the config lookup logic
(`src/intake/config.py`).

Python's `read()` invocations are instrumented explicitly: dispatch
functions that may materialize return a pair `(result, readCount)` where
`readCount` is the number of times `self.read()` was called on the executed
path.  The `Pipeline` class itself (from `intake.readers.convert`, not part
of the given sources) is modelled from the spec.
-/

namespace IntakeModel

/-- A registered transformation callable: an identity plus its Python
`__name__` (used by `Functioner.__getattr__` for name matching). -/
structure Func where
  fid : Nat
  name : String
deriving DecidableEq, Repr

/-- A keyword-argument value: either a string (e.g. `method_name`) or a
callable (e.g. the `func` entry set by `apply`). -/
inductive KVal where
  | str (s : String)
  | fnVal (f : Func)
deriving DecidableEq, Repr

/-- An atomic (non-Pipeline) reader, as the mixin sees it: only its
`output_instance` label matters to the dispatch code. -/
structure Reader where
  output_instance : String
deriving DecidableEq, Repr

/-- The operation slot of a pipeline step.  In the source a step's first
component is either a reader object (atomic or Pipeline), the `GetItem`
class, the `Method` class, the `GenericFunc` class, or a registered
transformation callable. -/
inductive StepOp where
  | reader (r : Reader)
  | pipeObj (steps : List (StepOp × List String × List (String × KVal))) (outs : List String)
  | getItemOp
  | methodOp
  | genericFunc
  | fn (f : Func)

/-- A pipeline step `(operation, positional_args, keyword_args)`.
Positional arguments in the modelled paths are strings (item keys). -/
abbrev Step := StepOp × List String × List (String × KVal)

/-- Modelled from the spec: the `Pipeline` class lives in
`intake.readers.convert`, which is not among the given sources.  Per the
spec's data model it owns an ordered sequence of steps and a parallel
sequence of output-type labels, stored as passed by the constructor. -/
structure Pipeline where
  steps : List Step
  out_instances : List String

/-- Modelled from the spec: `Pipeline.output_instance` returns the last
entry of the output-type sequence. -/
def Pipeline.output_instance (p : Pipeline) : String :=
  p.out_instances.getLastD ""

/-- Modelled from the spec: `Pipeline.with_step` appends `step` and
`out_instance` to the two sequences. -/
def Pipeline.with_step (p : Pipeline) (s : Step) (out : String) : Pipeline :=
  ⟨p.steps ++ [s], p.out_instances ++ [out]⟩

/-- The `self` object of the mixin methods: an atomic reader or a
Pipeline (`isinstance(self, Pipeline)` branches in the source). -/
inductive RObj where
  | atomic (r : Reader)
  | pipe (p : Pipeline)

/-- `self.output_instance` for either kind of reader. -/
def RObj.output_instance : RObj → String
  | .atomic r => r.output_instance
  | .pipe p => p.output_instance

/-- A reader object embedded as the first step of a pipeline,
`(self, (), {})` in the source. -/
def srcStep : RObj → Step
  | .atomic r => (StepOp.reader r, [], [])
  | .pipe p => (StepOp.pipeObj p.steps p.out_instances, [], [])

/-- The materialized value returned by `self.read()`: the core only ever
indexes it by a string key, so it is modelled as an opaque indexing map. -/
structure Mat where
  getEntry : String → Nat

/-- A registry lookup result, `convert_classes(output_instance)`:
a mapping from output-type label to transformation callable.  Python dict
iteration order is the list order. -/
abbrev FuncDict := List (String × Func)

/-- External collaborators of the mixin: the global registry
`convert_classes`, the result of `get_namespaces(self)` (name to opaque
object), and what `self.read()` would return. -/
structure Env where
  convert_classes : String → FuncDict
  namespaces : List (String × Nat)
  readMat : Mat

/-- The result of a dispatched access: a catalog entry obtained eagerly, a
constructed Pipeline, or a namespace object. -/
inductive Value where
  | entry (n : Nat)
  | pipe (p : Pipeline)
  | nsObj (v : Nat)

/-- Whether the first list starts the second list. -/
def listStartsWith : List Char → List Char → Bool
  | [], _ => true
  | _ :: _, [] => false
  | a :: as, b :: bs => a == b && listStartsWith as bs

/-- Whether the first list occurs as a contiguous sublist of the second. -/
def listContainsSub (needle : List Char) : List Char → Bool
  | [] => needle.isEmpty
  | c :: rest => listStartsWith needle (c :: rest) || listContainsSub needle rest

/-- Python's `"Catalog" in s`: substring containment test used by the mixin
to decide the catalog regime. -/
def containsCatalog (s : String) : Bool :=
  listContainsSub "Catalog".toList s.toList

/-- The `__name__`s of the registered callables, i.e. `dir(self.transform)`
membership (`Functioner.__dir__` yields `f.__name__` for the values). -/
def funcNames (fd : FuncDict) : List String :=
  fd.map (fun p => p.2.name)

/-- Embedding of `Functioner.__getattr__` (mixins.py lines 111-126): find
the first `(outtype, func)` pair whose callable is named `item`; if none,
fall back to a `Method` step carrying `method_name`; then append to the
pipeline or build a fresh 2-step pipeline around the atomic reader. -/
def Functioner_getattr (self : RObj) (funcdict : FuncDict) (item : String) : Pipeline :=
  let out := funcdict.filter (fun p => p.2.name == item)
  let sel : String × StepOp × List (String × KVal) :=
    match out with
    | [] => (self.output_instance, StepOp.methodOp, [("method_name", KVal.str item)])
    | (ot, f) :: _ => (ot, StepOp.fn f, [])
  match self with
  | .pipe p => p.with_step (sel.2.1, [], sel.2.2) sel.1
  | .atomic r => ⟨[(StepOp.reader r, [], []), (sel.2.1, [], sel.2.2)], [r.output_instance, sel.1]⟩

/-- Embedding of `Functioner.__getitem__` (mixins.py lines 76-92): a key
present in `funcdict` selects the registered callable with empty args,
otherwise `GetItem` with the key as sole positional argument; in the
Pipeline branch the source passes `(func, (), kw)`, dropping `arg`. -/
def Functioner_getitem (self : RObj) (funcdict : FuncDict) (item : String) : Pipeline :=
  let sel : StepOp × List String :=
    match funcdict.lookup item with
    | some f => (StepOp.fn f, [])
    | none => (StepOp.getItemOp, [item])
  match self with
  | .pipe p => p.with_step (sel.1, [], []) item
  | .atomic r => ⟨[(StepOp.reader r, [], []), (sel.1, sel.2, [])], [r.output_instance, item]⟩

/-- Embedding of `Functioner.__dir__` (mixins.py lines 108-109): the sorted
names of the registered callables. -/
def Functioner_dir (funcdict : FuncDict) : List String :=
  List.insertionSort (· ≤ ·) (funcNames funcdict)

/-- Embedding of `PipelineMixin.__getattr__` (mixins.py lines 9-18):
registry names first, then the catalog-eager branch (one `read()` call,
indexed by the attribute), then namespaces, then the generic method-call
fallback through the Functioner. -/
def PipelineMixin_getattr (env : Env) (self : RObj) (item : String) : Value × Nat :=
  let funcdict := env.convert_classes self.output_instance
  if item ∈ funcNames funcdict then
    (Value.pipe (Functioner_getattr self funcdict item), 0)
  else if containsCatalog self.output_instance then
    (Value.entry (env.readMat.getEntry item), 1)
  else
    match env.namespaces.lookup item with
    | some v => (Value.nsObj v, 0)
    | none => (Value.pipe (Functioner_getattr self funcdict item), 0)

/-- Embedding of `PipelineMixin.__getitem__` (mixins.py lines 20-33): the
catalog-eager branch first (one `read()` call, indexed by the key);
otherwise a `GetItem` step whose declared output type is the current
`output_instance`. -/
def PipelineMixin_getitem (env : Env) (self : RObj) (item : String) : Value × Nat :=
  let outtype := self.output_instance
  if containsCatalog outtype then
    (Value.entry (env.readMat.getEntry item), 1)
  else
    match self with
    | .pipe p => (Value.pipe (p.with_step (StepOp.getItemOp, [item], []) outtype), 0)
    | .atomic r =>
        (Value.pipe ⟨[(StepOp.reader r, [], []), (StepOp.getItemOp, [item], [])],
          [r.output_instance, outtype]⟩, 0)

/-- Embedding of `PipelineMixin.__dir__` (mixins.py lines 35-36): sorted
chain of the object's native members, `dir(self.transform)` and the
namespace names. -/
def PipelineMixin_dir (env : Env) (self : RObj) (native : List String) : List String :=
  List.insertionSort (· ≤ ·)
    (native ++ Functioner_dir (env.convert_classes self.output_instance)
      ++ env.namespaces.map Prod.fst)

/-- Python's `kwargs["func"] = func`: replace the binding if the key is
present, else append it. -/
def setKw (kws : List (String × KVal)) (k : String) (v : KVal) : List (String × KVal) :=
  if (kws.lookup k).isSome then
    kws.map (fun p => if p.1 == k then (k, v) else p)
  else kws ++ [(k, v)]

/-- Python's `output_instance or self.output_instance`: a falsy (absent or
empty-string) caller value falls back to the reader's current label. -/
def applyOut (self : RObj) (oi : Option String) : String :=
  match oi with
  | some s => if s == "" then self.output_instance else s
  | none => self.output_instance

/-- Embedding of `PipelineMixin.apply` (mixins.py lines 50-56): always
builds a fresh 2-step pipeline `[(self, (), {}), (GenericFunc, args, kw)]`
with `kw["func"] = func`, regardless of catalog-ness; never reads. -/
def PipelineMixin_apply (self : RObj) (func : Func) (args : List String)
    (oi : Option String) (kwargs : List (String × KVal)) : Pipeline × Nat :=
  let kw := setKw kwargs "func" (KVal.fnVal func)
  (⟨[srcStep self, (StepOp.genericFunc, args, kw)],
    [self.output_instance, applyOut self oi]⟩, 0)

/-- A configuration value from `intake/config.py`: string, boolean, or a
list of path strings. -/
inductive CVal where
  | str (s : String)
  | boolv (b : Bool)
  | listv (l : List String)
deriving DecidableEq, Repr

/-- The module-level `defaults` dict of `intake/config.py` (lines 25-34). -/
def defaults : List (String × CVal) :=
  [("logging", CVal.str "INFO"),
   ("catalog_path", CVal.listv []),
   ("allow_import", CVal.boolv true),
   ("allow_templates", CVal.boolv true),
   ("allow_pickle", CVal.boolv false),
   ("import_on_startup", CVal.boolv true),
   ("extra_imports", CVal.listv []),
   ("import_block_list", CVal.listv [])]

/-- A `Config` instance viewed as its own stored dict entries
(`Config` subclasses `dict`; `item in self` consults these). -/
structure Config where
  entries : List (String × CVal)
deriving DecidableEq, Repr

/-- Embedding of `Config.__getitem__` (config.py lines 110-116): own entry
first, then the module-level default, else `KeyError(item)`. -/
def Config.getitem (c : Config) (item : String) : Except String CVal :=
  match c.entries.lookup item with
  | some v => Except.ok v
  | none =>
      match defaults.lookup item with
      | some v => Except.ok v
      | none => Except.error item

/-- Embedding of `Config.get` (config.py lines 118-121): own entry first,
else the supplied default; module-level `defaults` is never consulted. -/
def Config.get (c : Config) (key : String) (default : CVal) : CVal :=
  match c.entries.lookup key with
  | some v => v
  | none => default

/-- Whether a dispatch result is a constructed Pipeline. -/
def Value.isPipe : Value → Bool
  | .pipe _ => true
  | _ => false

/-- The step/output-length relation assumed of the `self` object: trivial
for an atomic reader, the sequences-of-equal-length property for a
Pipeline. -/
def RObj.inv : RObj → Prop
  | .atomic _ => True
  | .pipe p => p.steps.length = p.out_instances.length

/-- Concrete fixtures used by witnesses and counterexamples. -/
def headFn : Func := ⟨1, "head"⟩

/-- A second callable sharing a `__name__` with `dupA`. -/
def dupA : Func := ⟨10, "dup"⟩

/-- See `dupA`. -/
def dupB : Func := ⟨11, "dup"⟩

/-- An atomic reader with a non-catalog output label. -/
def rdf : Reader := ⟨"pkg:DataFrame"⟩

/-- An atomic reader whose output label contains the catalog marker. -/
def rcat : Reader := ⟨"MyCatalog"⟩

/-- A concrete materialized value: every key maps to entry 7. -/
def mat0 : Mat := ⟨fun _ => 7⟩

/-- An environment with one registered transformation and one namespace. -/
def env0 : Env := ⟨fun _ => [("pkg:DataFrame", headFn)], [("ns1", 5)], mat0⟩

/-- An environment with an empty registry and one namespace. -/
def envEmpty : Env := ⟨fun _ => [], [("ns1", 5)], mat0⟩

/-- An environment with a registered callable named `head` and no
namespaces. -/
def envC9 : Env := ⟨fun _ => [("pkg:DataFrame", headFn)], [], mat0⟩

/-- A registry with two callables sharing the `__name__` `dup`. -/
def fdDup : FuncDict := [("t:A", dupA), ("t:B", dupB)]

/-- The pipeline produced by `rdf["x"]` through the mixin. -/
def pC4 : Pipeline :=
  ⟨[(StepOp.reader rdf, [], []), (StepOp.getItemOp, ["x"], [])],
   ["pkg:DataFrame", "pkg:DataFrame"]⟩

/-- A list starts with itself followed by anything. -/
theorem listStartsWith_self (xs ys : List Char) : listStartsWith xs (xs ++ ys) = true := by
  induction xs with
  | nil => rfl
  | cons a as ih => simp [listStartsWith, ih]

/-- A contiguous occurrence anywhere is detected by `listContainsSub`. -/
theorem listContainsSub_mid (needle pre post : List Char) :
    listContainsSub needle (pre ++ needle ++ post) = true := by
  induction pre with
  | nil =>
    cases needle with
    | nil =>
      cases post with
      | nil => rfl
      | cons c cs => simp [listContainsSub, listStartsWith]
    | cons n ns =>
      simp only [List.nil_append, List.cons_append, listContainsSub]
      have h := listStartsWith_self (n :: ns) post
      simp only [List.cons_append] at h
      simp [h]
  | cons c cs ih =>
    simp only [List.cons_append, listContainsSub]
    rw [show (cs.append needle).append post = cs ++ needle ++ post from rfl, ih]
    simp

/-- Any label with `Catalog` anywhere inside passes the catalog test. -/
theorem containsCatalog_mid (pre post : String) :
    containsCatalog (pre ++ "Catalog" ++ post) = true := by
  have h : (pre ++ "Catalog" ++ post).toList =
      pre.toList ++ "Catalog".toList ++ post.toList := by
    show (pre ++ "Catalog" ++ post).data = pre.data ++ "Catalog".data ++ post.data
    simp [String.data_append]
  simp only [containsCatalog, h]
  exact listContainsSub_mid _ _ _

/-- C1: for every reader or Pipeline whose output label contains the
catalog marker, item access calls `read()` exactly once and returns the
materialized result indexed by the key; no Pipeline is constructed and no
step is appended. -/
theorem C1_catalog_getitem_eager (env : Env) (self : RObj) (item : String)
    (h : containsCatalog self.output_instance = true) :
    PipelineMixin_getitem env self item = (Value.entry (env.readMat.getEntry item), 1) := by
  simp [PipelineMixin_getitem, h]

/-- C1 witness: a concrete catalog-labelled reader indexed by `x`. -/
theorem C1_witness :
    PipelineMixin_getitem env0 (RObj.atomic rcat) "x" =
      (Value.entry (env0.readMat.getEntry "x"), 1) :=
  C1_catalog_getitem_eager env0 (RObj.atomic rcat) "x" (by decide)

/-- C10: for a key absent from a Config's own stored entries,
`__getitem__` falls back to the module-level defaults or raises
`KeyError`, while `get` returns the supplied default without consulting
the module-level defaults. -/
theorem C10_config_defaults (c : Config) (k : String)
    (h : c.entries.lookup k = none) :
    (∀ v, defaults.lookup k = some v → Config.getitem c k = Except.ok v) ∧
    (defaults.lookup k = none → Config.getitem c k = Except.error k) ∧
    (∀ d, Config.get c k d = d) := by
  refine ⟨fun v hv => ?_, fun hd => ?_, fun d => ?_⟩
  · simp [Config.getitem, h, hv]
  · simp [Config.getitem, h, hd]
  · simp [Config.get, h]

/-- C10 witness: `allow_pickle` is absent from this instance's own
entries, so `__getitem__` yields the default `False` while `get` yields
the caller-supplied fallback. -/
theorem C10_witness :
    Config.getitem ⟨[("logging", CVal.str "DEBUG")]⟩ "allow_pickle" =
      Except.ok (CVal.boolv false) ∧
    Config.get ⟨[("logging", CVal.str "DEBUG")]⟩ "allow_pickle" (CVal.str "d") =
      CVal.str "d" :=
  ⟨(C10_config_defaults ⟨[("logging", CVal.str "DEBUG")]⟩ "allow_pickle" (by decide)).1
      (CVal.boolv false) (by decide),
   (C10_config_defaults ⟨[("logging", CVal.str "DEBUG")]⟩ "allow_pickle" (by decide)).2.2
      (CVal.str "d")⟩

/-- The pipeline built by `Functioner.__getattr__` around an atomic reader
always has two steps, the first wrapping the reader. -/
theorem Functioner_getattr_atomic_shape (r : Reader) (fd : FuncDict) (item : String) :
    (Functioner_getattr (RObj.atomic r) fd item).steps.length = 2 ∧
    (Functioner_getattr (RObj.atomic r) fd item).steps.head? =
      some (StepOp.reader r, [], []) :=
  ⟨rfl, rfl⟩

/-- C2 counterexample: on a non-catalog atomic reader, attribute access
hitting a registered namespace name returns the namespace object, not a
Pipeline. -/
theorem C2_counterexample :
    (PipelineMixin_getattr envEmpty (RObj.atomic rdf) "ns1").1 = Value.nsObj 5 ∧
    (PipelineMixin_getattr envEmpty (RObj.atomic rdf) "ns1").1.isPipe = false ∧
    containsCatalog rdf.output_instance = false :=
  ⟨rfl, rfl, by decide⟩

/-- C2 amended: on a non-catalog atomic reader, item access always defers
into a fresh 2-step pipeline whose first step wraps the reader, with zero
`read()` calls; attribute access does the same except when the name misses
the registry but matches a registered namespace, in which case the
namespace object is returned, still with zero `read()` calls. -/
theorem C2_deferral_amended :
    (∀ (env : Env) (r : Reader) (item : String),
      containsCatalog r.output_instance = false →
      PipelineMixin_getitem env (RObj.atomic r) item =
        (Value.pipe ⟨[(StepOp.reader r, [], []), (StepOp.getItemOp, [item], [])],
          [r.output_instance, r.output_instance]⟩, 0))
    ∧ (∀ (env : Env) (r : Reader) (item : String),
      containsCatalog r.output_instance = false →
      (item ∈ funcNames (env.convert_classes r.output_instance) ∨
        env.namespaces.lookup item = none) →
      PipelineMixin_getattr env (RObj.atomic r) item =
        (Value.pipe (Functioner_getattr (RObj.atomic r)
          (env.convert_classes r.output_instance) item), 0) ∧
      (Functioner_getattr (RObj.atomic r)
        (env.convert_classes r.output_instance) item).steps.length = 2 ∧
      (Functioner_getattr (RObj.atomic r)
        (env.convert_classes r.output_instance) item).steps.head? =
        some (StepOp.reader r, [], []))
    ∧ (∀ (env : Env) (r : Reader) (item : String) (v : Nat),
      containsCatalog r.output_instance = false →
      item ∉ funcNames (env.convert_classes r.output_instance) →
      env.namespaces.lookup item = some v →
      PipelineMixin_getattr env (RObj.atomic r) item = (Value.nsObj v, 0)) := by
  refine ⟨fun env r item h => ?_, fun env r item h hcase => ?_, fun env r item v h hm hv => ?_⟩
  · simp [PipelineMixin_getitem, RObj.output_instance, h]
  · by_cases hm : item ∈ funcNames (env.convert_classes r.output_instance)
    · exact ⟨by simp [PipelineMixin_getattr, RObj.output_instance, hm],
        (Functioner_getattr_atomic_shape r _ item).1,
        (Functioner_getattr_atomic_shape r _ item).2⟩
    · have hns := hcase.resolve_left hm
      exact ⟨by simp [PipelineMixin_getattr, RObj.output_instance, hm, h, hns],
        (Functioner_getattr_atomic_shape r _ item).1,
        (Functioner_getattr_atomic_shape r _ item).2⟩
  · simp [PipelineMixin_getattr, RObj.output_instance, hm, h, hv]

/-- C2 witness: item access on a concrete non-catalog reader yields the
concrete 2-step pipeline without reading. -/
theorem C2_witness :
    PipelineMixin_getitem envEmpty (RObj.atomic rdf) "x" =
      (Value.pipe ⟨[(StepOp.reader rdf, [], []), (StepOp.getItemOp, ["x"], [])],
        ["pkg:DataFrame", "pkg:DataFrame"]⟩, 0) :=
  C2_deferral_amended.1 envEmpty rdf "x" (by decide)

/-- C3 counterexample: a pipeline the core builds from an atomic reader has
2 steps and 2 output labels, refuting `len(out_instances) = len(steps) + 1`. -/
theorem C3_counterexample :
    (Functioner_getitem (RObj.atomic rdf) [] "x").steps.length = 2 ∧
    (Functioner_getitem (RObj.atomic rdf) [] "x").out_instances.length = 2 ∧
    ¬((Functioner_getitem (RObj.atomic rdf) [] "x").out_instances.length =
      (Functioner_getitem (RObj.atomic rdf) [] "x").steps.length + 1) :=
  ⟨rfl, rfl, by decide⟩

/-- C3 amended: every pipeline the core constructs or extends has step and
output-type sequences of equal length (the initial reader occupies both a
step slot and an output slot). -/
theorem C3_invariant_amended :
    (∀ (env : Env) (self : RObj) (item : String) (p : Pipeline) (n : Nat),
      RObj.inv self →
      PipelineMixin_getitem env self item = (Value.pipe p, n) →
      p.steps.length = p.out_instances.length)
    ∧ (∀ (self : RObj) (fd : FuncDict) (item : String),
      RObj.inv self →
      (Functioner_getitem self fd item).steps.length =
        (Functioner_getitem self fd item).out_instances.length)
    ∧ (∀ (self : RObj) (fd : FuncDict) (item : String),
      RObj.inv self →
      (Functioner_getattr self fd item).steps.length =
        (Functioner_getattr self fd item).out_instances.length)
    ∧ (∀ (self : RObj) (f : Func) (args : List String) (oi : Option String)
        (kw : List (String × KVal)),
      (PipelineMixin_apply self f args oi kw).1.steps.length =
        (PipelineMixin_apply self f args oi kw).1.out_instances.length)
    ∧ (∀ (p : Pipeline) (s : Step) (o : String),
      p.steps.length = p.out_instances.length →
      (p.with_step s o).steps.length = (p.with_step s o).out_instances.length) := by
  refine ⟨fun env self item p n hinv heq => ?_, fun self fd item hinv => ?_,
    fun self fd item hinv => ?_, fun self f args oi kw => rfl, fun p s o h => ?_⟩
  · cases self with
    | atomic r =>
      cases hc : containsCatalog r.output_instance with
      | true => simp [PipelineMixin_getitem, RObj.output_instance, hc] at heq
      | false =>
        simp [PipelineMixin_getitem, RObj.output_instance, hc] at heq
        obtain ⟨h1, _⟩ := heq
        subst h1
        rfl
    | pipe q =>
      cases hc : containsCatalog q.output_instance with
      | true => simp [PipelineMixin_getitem, RObj.output_instance, hc] at heq
      | false =>
        simp [PipelineMixin_getitem, RObj.output_instance, hc] at heq
        obtain ⟨h1, _⟩ := heq
        subst h1
        simp only [RObj.inv] at hinv
        simp [Pipeline.with_step, hinv]
  · cases self with
    | atomic r => rfl
    | pipe q =>
      simp only [RObj.inv] at hinv
      simp [Functioner_getitem, Pipeline.with_step, hinv]
  · cases self with
    | atomic r => rfl
    | pipe q =>
      simp only [RObj.inv] at hinv
      simp [Functioner_getattr, Pipeline.with_step, hinv]
  · simp [Pipeline.with_step, h]

/-- C3 witness: the amended invariant at concrete inputs. -/
theorem C3_witness :
    (Functioner_getattr (RObj.atomic rdf) [] "foo").steps.length =
      (Functioner_getattr (RObj.atomic rdf) [] "foo").out_instances.length :=
  C3_invariant_amended.2.2.1 (RObj.atomic rdf) [] "foo" True.intro

/-- C4 counterexample: item access on a non-catalog atomic reader appends
the get-item step but declares the current output type, not the literal
key. -/
theorem C4_counterexample :
    PipelineMixin_getitem envEmpty (RObj.atomic rdf) "x" = (Value.pipe pC4, 0) ∧
    pC4.out_instances.getLast? = some "pkg:DataFrame" ∧
    pC4.out_instances.getLast? ≠ some "x" :=
  ⟨rfl, rfl, by decide⟩

/-- C4 amended: the unknown-key item-access step is the get-item operation;
through the mixin it carries the key as sole positional argument but the
new declared output type equals the current `output_instance`; through the
Functioner the new declared output type is the literal key, with the key as
sole positional argument for an atomic reader but with empty positional
arguments when the bound reader is already a Pipeline. -/
theorem C4_getitem_amended :
    (∀ (env : Env) (self : RObj) (item : String),
      containsCatalog self.output_instance = false →
      (PipelineMixin_getitem env self item).2 = 0 ∧
      (∀ p, (PipelineMixin_getitem env self item).1 = Value.pipe p →
        p.steps.getLast? = some (StepOp.getItemOp, [item], []) ∧
        p.out_instances.getLast? = some self.output_instance))
    ∧ (∀ (r : Reader) (fd : FuncDict) (item : String),
      fd.lookup item = none →
      (Functioner_getitem (RObj.atomic r) fd item).steps.getLast? =
        some (StepOp.getItemOp, [item], []) ∧
      (Functioner_getitem (RObj.atomic r) fd item).out_instances.getLast? =
        some item)
    ∧ (∀ (p : Pipeline) (fd : FuncDict) (item : String),
      fd.lookup item = none →
      (Functioner_getitem (RObj.pipe p) fd item).steps.getLast? =
        some (StepOp.getItemOp, [], []) ∧
      (Functioner_getitem (RObj.pipe p) fd item).out_instances.getLast? =
        some item) := by
  refine ⟨fun env self item hc => ?_, fun r fd item hl => ?_, fun p fd item hl => ?_⟩
  · cases self with
    | atomic r =>
      simp only [RObj.output_instance] at hc
      refine ⟨by simp [PipelineMixin_getitem, RObj.output_instance, hc], fun p hp => ?_⟩
      simp [PipelineMixin_getitem, RObj.output_instance, hc] at hp
      subst hp
      exact ⟨rfl, rfl⟩
    | pipe q =>
      simp only [RObj.output_instance] at hc
      refine ⟨by simp [PipelineMixin_getitem, RObj.output_instance, hc], fun p hp => ?_⟩
      simp [PipelineMixin_getitem, RObj.output_instance, hc] at hp
      subst hp
      simp [Pipeline.with_step, RObj.output_instance, List.getLast?_concat]
  · simp [Functioner_getitem, hl]
  · simp [Functioner_getitem, hl, Pipeline.with_step, List.getLast?_concat]

/-- C4 witness: the amended statements at concrete inputs. -/
theorem C4_witness :
    (Functioner_getitem (RObj.atomic rdf) [] "x").steps.getLast? =
      some (StepOp.getItemOp, ["x"], []) ∧
    (Functioner_getitem (RObj.atomic rdf) [] "x").out_instances.getLast? =
      some "x" :=
  C4_getitem_amended.2.1 rdf [] "x" rfl

/-- A nonempty filter result puts the matching name into `funcNames`. -/
theorem mem_funcNames_of_filter (fd : FuncDict) (item ot : String) (f : Func)
    (rest : FuncDict)
    (h : fd.filter (fun p => p.2.name == item) = (ot, f) :: rest) :
    item ∈ funcNames fd := by
  have hmem : (ot, f) ∈ fd.filter (fun p => p.2.name == item) := by
    rw [h]; exact List.mem_cons_self _ _
  have h1 : (ot, f) ∈ fd := List.mem_of_mem_filter hmem
  have h3 : f.name = item := by simpa using List.of_mem_filter hmem
  exact h3 ▸ List.mem_map_of_mem (fun p => p.2.name) h1

/-- C5: a name registered in `convert_classes(output_instance)` resolves
through the registry branch: the access defers into a pipeline whose last
step calls the first matching registered callable and whose new declared
output type is that entry's registry key, with no `read()` call, taking
precedence over the catalog branch, namespaces, and the generic method
fallback. -/
theorem C5_registry_precedence (env : Env) (self : RObj) (n ot : String) (f : Func)
    (rest : FuncDict)
    (h : (env.convert_classes self.output_instance).filter
      (fun p => p.2.name == n) = (ot, f) :: rest) :
    PipelineMixin_getattr env self n =
      (Value.pipe (Functioner_getattr self
        (env.convert_classes self.output_instance) n), 0) ∧
    (Functioner_getattr self
      (env.convert_classes self.output_instance) n).steps.getLast? =
      some (StepOp.fn f, [], []) ∧
    (Functioner_getattr self
      (env.convert_classes self.output_instance) n).out_instances.getLast? =
      some ot := by
  have hmem := mem_funcNames_of_filter _ _ _ _ _ h
  refine ⟨by simp [PipelineMixin_getattr, hmem], ?_, ?_⟩ <;>
    cases self <;>
      simp [Functioner_getattr, h, Pipeline.with_step, List.getLast?_concat]

/-- C5 witness: the registered name `head` wins even on a catalog-labelled
reader. -/
theorem C5_witness :
    PipelineMixin_getattr env0 (RObj.atomic rcat) "head" =
      (Value.pipe (Functioner_getattr (RObj.atomic rcat)
        (env0.convert_classes "MyCatalog") "head"), 0) ∧
    (Functioner_getattr (RObj.atomic rcat)
      (env0.convert_classes "MyCatalog") "head").steps.getLast? =
      some (StepOp.fn headFn, [], []) ∧
    (Functioner_getattr (RObj.atomic rcat)
      (env0.convert_classes "MyCatalog") "head").out_instances.getLast? =
      some "pkg:DataFrame" :=
  C5_registry_precedence env0 (RObj.atomic rcat) "head" "pkg:DataFrame" headFn []
    (by decide)

/-- Appending a fresh binding is found by lookup when the key was absent. -/
theorem lookup_append_single (l : List (String × KVal)) (k : String) (v : KVal)
    (h : l.lookup k = none) : (l ++ [(k, v)]).lookup k = some v := by
  induction l with
  | nil => simp [List.lookup]
  | cons a l ih =>
    obtain ⟨a1, a2⟩ := a
    cases hkb : k == a1 with
    | true => simp [List.lookup, hkb] at h
    | false =>
      simp only [List.lookup, hkb] at h
      simp only [List.cons_append, List.lookup, hkb]
      exact ih h

/-- Overwriting an existing binding is found by lookup. -/
theorem lookup_map_set (l : List (String × KVal)) (k : String) (v : KVal)
    (h : (l.lookup k).isSome = true) :
    (l.map (fun p => if p.1 == k then (k, v) else p)).lookup k = some v := by
  induction l with
  | nil => simp [List.lookup] at h
  | cons a l ih =>
    obtain ⟨a1, a2⟩ := a
    cases hkb : a1 == k with
    | true =>
      have hif : (if ((a1, a2).1 == k) = true then (k, v) else (a1, a2)) = (k, v) :=
        if_pos hkb
      rw [List.map_cons, hif]
      simp [List.lookup]
    | false =>
      have hne : a1 ≠ k := by simpa using hkb
      have hk2 : (k == a1) = false := beq_eq_false_iff_ne.mpr fun hh => hne hh.symm
      have hif : (if ((a1, a2).1 == k) = true then (k, v) else (a1, a2)) = (a1, a2) :=
        if_neg (by simp [hkb])
      rw [List.map_cons, hif]
      simp only [List.lookup, hk2] at h
      simp only [List.lookup, hk2]
      exact ih h

/-- Setting the `func` keyword makes its lookup resolve to the new value. -/
theorem lookup_setKw (l : List (String × KVal)) (k : String) (v : KVal) :
    (setKw l k v).lookup k = some v := by
  by_cases h : (l.lookup k).isSome
  · simp only [setKw, h, if_true]
    exact lookup_map_set l k v h
  · have hnone : l.lookup k = none := by
      cases hl : l.lookup k with
      | none => rfl
      | some w => rw [hl] at h; simp at h
    simp only [setKw, h, if_false]
    exact lookup_append_single l k v hnone

/-- C6 counterexample: a caller-supplied empty-string output label is
discarded by Python truthiness and the reader's current label is used
instead. -/
theorem C6_counterexample :
    (PipelineMixin_apply (RObj.atomic rdf) headFn [] (some "") []).1.output_instance =
      "pkg:DataFrame" ∧
    (PipelineMixin_apply (RObj.atomic rdf) headFn [] (some "") []).1.output_instance ≠
      "" :=
  ⟨rfl, by decide⟩

/-- C6 amended: `apply` never reads and always builds a 2-step pipeline
whose first step wraps the reader and whose second step is the generic
function operation carrying the supplied callable under the `func` keyword;
the final declared output type is the caller-supplied label when that label
is truthy (non-empty), and the reader's current output type when it is
omitted or empty. -/
theorem C6_apply_amended (self : RObj) (f : Func) (args : List String)
    (oi : Option String) (kw : List (String × KVal)) :
    (PipelineMixin_apply self f args oi kw).2 = 0 ∧
    (PipelineMixin_apply self f args oi kw).1.steps.length = 2 ∧
    (PipelineMixin_apply self f args oi kw).1.steps.head? = some (srcStep self) ∧
    (PipelineMixin_apply self f args oi kw).1.steps.getLast? =
      some (StepOp.genericFunc, args, setKw kw "func" (KVal.fnVal f)) ∧
    (setKw kw "func" (KVal.fnVal f)).lookup "func" = some (KVal.fnVal f) ∧
    (∀ s, oi = some s → s ≠ "" →
      (PipelineMixin_apply self f args oi kw).1.output_instance = s) ∧
    ((oi = none ∨ oi = some "") →
      (PipelineMixin_apply self f args oi kw).1.output_instance =
        self.output_instance) := by
  refine ⟨rfl, rfl, rfl, rfl, lookup_setKw kw "func" (KVal.fnVal f),
    fun s hs hne => ?_, fun hor => ?_⟩
  · subst hs
    simp [PipelineMixin_apply, Pipeline.output_instance, applyOut, hne]
  · rcases hor with h | h <;> subst h <;>
      simp [PipelineMixin_apply, Pipeline.output_instance, applyOut]

/-- C6 witness: the amended contract at concrete inputs. -/
theorem C6_witness :
    (PipelineMixin_apply (RObj.atomic rdf) headFn ["a"] (some "out:T") []).1.output_instance =
      "out:T" ∧
    (PipelineMixin_apply (RObj.atomic rdf) headFn ["a"] (some "out:T") []).2 = 0 :=
  ⟨(C6_apply_amended (RObj.atomic rdf) headFn ["a"] (some "out:T") []).2.2.2.2.2.1
      "out:T" rfl (by decide),
   (C6_apply_amended (RObj.atomic rdf) headFn ["a"] (some "out:T") []).1⟩

/-- C7: enumeration is pure: `__dir__` returns a sorted list whose members
are exactly the native members, the registered callable names for the
current output type, and the namespace names; it is independent of what
`read()` would return, and the Functioner's enumeration is the sorted
registered names. -/
theorem C7_dir_pure :
    (∀ (env : Env) (self : RObj) (native : List String),
      List.Sorted (· ≤ ·) (PipelineMixin_dir env self native)
      ∧ (∀ s, s ∈ PipelineMixin_dir env self native ↔
          (s ∈ native ∨ s ∈ funcNames (env.convert_classes self.output_instance)
            ∨ s ∈ env.namespaces.map Prod.fst))
      ∧ (∀ m : Mat, PipelineMixin_dir ⟨env.convert_classes, env.namespaces, m⟩ self native =
          PipelineMixin_dir env self native))
    ∧ (∀ fd : FuncDict,
      List.Sorted (· ≤ ·) (Functioner_dir fd)
      ∧ ∀ s, s ∈ Functioner_dir fd ↔ s ∈ funcNames fd) := by
  refine ⟨fun env self native =>
    ⟨List.sorted_insertionSort _ _, fun s => ?_, fun m => rfl⟩,
    fun fd => ⟨List.sorted_insertionSort _ _, fun s => ?_⟩⟩
  · simp [PipelineMixin_dir, Functioner_dir]
  · simp [Functioner_dir]

/-- C7 witness: the registered name is enumerated on a concrete reader. -/
theorem C7_witness :
    "head" ∈ PipelineMixin_dir env0 (RObj.atomic rdf) [] :=
  ((C7_dir_pure.1 env0 (RObj.atomic rdf) []).2.1 "head").mpr
    (Or.inr (Or.inl (by decide)))

/-- C8: when several registered callables share the requested `__name__`,
the Functioner selects the first matching `(outtype, callable)` pair in the
funcdict's iteration order. -/
theorem C8_first_match (self : RObj) (fd : FuncDict) (item ot : String) (f : Func)
    (rest : FuncDict)
    (h : fd.filter (fun p => p.2.name == item) = (ot, f) :: rest) :
    (Functioner_getattr self fd item).steps.getLast? = some (StepOp.fn f, [], []) ∧
    (Functioner_getattr self fd item).out_instances.getLast? = some ot := by
  cases self <;>
    simp [Functioner_getattr, h, Pipeline.with_step, List.getLast?_concat]

/-- C8 witness: two callables named `dup`; the first entry wins. -/
theorem C8_witness :
    (Functioner_getattr (RObj.atomic rdf) fdDup "dup").steps.getLast? =
      some (StepOp.fn dupA, [], []) ∧
    (Functioner_getattr (RObj.atomic rdf) fdDup "dup").out_instances.getLast? =
      some "t:A" :=
  C8_first_match (RObj.atomic rdf) fdDup "dup" "t:A" dupA [("t:B", dupB)] (by decide)

/-- C9 counterexample: a catalog-labelled reader whose requested attribute
is a registered transformation name is dispatched lazily (a pipeline, zero
reads), not eagerly. -/
theorem C9_counterexample :
    (PipelineMixin_getattr envC9 (RObj.atomic rcat) "head").1.isPipe = true ∧
    (PipelineMixin_getattr envC9 (RObj.atomic rcat) "head").2 = 0 ∧
    containsCatalog rcat.output_instance = true :=
  ⟨rfl, rfl, by decide⟩

/-- C9 amended: the catalog test is a substring match (`Catalog` anywhere
in the label); item access on such a reader is always eager, and attribute
access is eager exactly when the requested name is not a registered
transformation name. -/
theorem C9_substring_eager_amended :
    (∀ pre post : String, containsCatalog (pre ++ "Catalog" ++ post) = true)
    ∧ (∀ (env : Env) (self : RObj) (item : String),
        containsCatalog self.output_instance = true →
        PipelineMixin_getitem env self item =
          (Value.entry (env.readMat.getEntry item), 1))
    ∧ (∀ (env : Env) (self : RObj) (item : String),
        containsCatalog self.output_instance = true →
        item ∉ funcNames (env.convert_classes self.output_instance) →
        PipelineMixin_getattr env self item =
          (Value.entry (env.readMat.getEntry item), 1)) := by
  refine ⟨containsCatalog_mid, fun env self item h => ?_,
    fun env self item h hm => ?_⟩
  · simp [PipelineMixin_getitem, h]
  · simp [PipelineMixin_getattr, h, hm]

/-- C9 witness: a label merely containing the marker substring is eagerly
materialized on attribute access to an unregistered name. -/
theorem C9_witness :
    PipelineMixin_getattr envEmpty (RObj.atomic ⟨"list[CatalogEntry]"⟩) "foo" =
      (Value.entry (envEmpty.readMat.getEntry "foo"), 1) :=
  C9_substring_eager_amended.2.2 envEmpty (RObj.atomic ⟨"list[CatalogEntry]"⟩) "foo"
    (by decide) (by decide)

end IntakeModel
